import Mathlib

/-!
Shallow embedding of `custom_components/solar_optimizer/simulated_annealing_algo.py`
(class `SimulatedAnnealingAlgorithm`).

Modelling conventions:
* Python floats are modelled as rationals (`ℚ`), except the single draw
  `random.random()` compared against `math.exp(...)`, which is modelled as a
  real number (`ℝ`) since `math.exp` is transcendental.
* Fallible Python code (raising exceptions) is modelled in the `Except` monad.
  The source can raise `ZeroDivisionError` (float division by zero) and
  `IndexError` (`random.choice` on an empty sequence).  The error type also
  carries the named errors `invalidTariff` and `noUsableDevice` that the spec
  prescribes, so that claims about them can be stated; the source never
  produces them.
* Randomness is injected as an oracle `R : ℕ → ℕ × ℝ`: for iteration `i`,
  `(R i).1` drives `random.choice` (index into the usable list, taken modulo
  its length) and `(R i).2` is the `random.random()` draw.
* The instance fields set by `recuit_simule` (`_cout_achat`, `_cout_revente`,
  `_taxe_revente`, `_consommation_net`, `_production_solaire`,
  `_puissance_totale_eqt_initiale`) are gathered in an explicit `Ctx` record;
  the construction-time parameters in `AlgoConfig`.
* `copy.deepcopy` on a list of dicts is the identity on values in this pure
  embedding; mutation of the copy (`eqt["state"] = not eqt["state"]`) becomes
  functional update of the corresponding list element.
* The loop state carries a ghost field `visited` recording the objective of
  every neighbour candidate evaluated (one entry per executed iteration);
  it influences nothing.
-/

set_option linter.unusedVariables false

namespace SolarOptimizer

/-- Errors the embedded code can signal.  `zeroDivisionError` and `indexError`
are the Python exceptions actually reachable in the source; `invalidTariff`
and `noUsableDevice` are the named errors the specification prescribes. -/
inductive PyError where
  | zeroDivisionError
  | indexError
  | invalidTariff
  | noUsableDevice
deriving DecidableEq, Repr

/-- A device as seen by the caller (`ManagedDevice`).  The solver reads only
`name`, `power_max`, `is_active` and `is_usable`; `extra` stands for every
other attribute of the Python object. -/
structure ManagedDevice (α : Type) where
  name : String
  power_max : ℚ
  is_active : Bool
  is_usable : Bool
  extra : α
deriving DecidableEq, Repr

/-- The projection of a device onto the four attributes `recuit_simule` reads. -/
def ManagedDevice.proj (d : ManagedDevice α) : String × ℚ × Bool × Bool :=
  (d.name, d.power_max, d.is_active, d.is_usable)

/-- One entry of the internal working list `self._equipements`: the dict
`{"power_max": ..., "name": ..., "state": ..., "is_usable": ...}`. -/
structure Eqt where
  power_max : ℚ
  name : String
  state : Bool
  is_usable : Bool
deriving DecidableEq, Repr

/-- Building one working dict from a device (body of the loop at lines
101-110 of the source). -/
def toEqt (d : ManagedDevice α) : Eqt :=
  ⟨d.power_max, d.name, d.is_active, d.is_usable⟩

/-- `consommation_equipements`: total `power_max` of the equipments with
`state = True`. -/
def consommation_equipements (solution : List Eqt) : ℚ :=
  ((solution.filter fun e => e.state).map fun e => e.power_max).sum

/-- The per-call scalar context: the instance fields `recuit_simule` and
`generer_solution_initiale` store on `self` before the annealing loop runs. -/
structure Ctx where
  cout_achat : ℚ
  cout_revente : ℚ
  taxe_revente : ℚ
  consommation_net : ℚ
  production_solaire : ℚ
  puissance_totale_eqt_initiale : ℚ
deriving DecidableEq, Repr

/-- `calculer_objectif` (lines 173-207).  Python float division raises
`ZeroDivisionError` when the denominator `cout_achat + cout_revente_impose`
is zero; the quantities `new_consommation_solaire` and
`new_consommation_totale` are computed but unused, as in the source. -/
def calculer_objectif (ctx : Ctx) (solution : List Eqt) : Except PyError ℚ :=
  let puissance_totale_eqt := consommation_equipements solution
  let diff_puissance_totale_eqt :=
    puissance_totale_eqt - ctx.puissance_totale_eqt_initiale
  let new_consommation_net := ctx.consommation_net + diff_puissance_totale_eqt
  let new_rejets : ℚ := if new_consommation_net ≥ 0 then 0 else -new_consommation_net
  let new_import : ℚ := if new_consommation_net < 0 then 0 else new_consommation_net
  let new_consommation_solaire :=
    min ctx.production_solaire (ctx.production_solaire - new_rejets)
  let new_consommation_totale :=
    (new_consommation_net + new_rejets) + new_consommation_solaire
  let cout_revente_impose := ctx.cout_revente * (1 - ctx.taxe_revente / 100)
  if ctx.cout_achat + cout_revente_impose = 0 then
    .error .zeroDivisionError
  else
    let coef_import := ctx.cout_achat / (ctx.cout_achat + cout_revente_impose)
    let coef_rejets := cout_revente_impose / (ctx.cout_achat + cout_revente_impose)
    .ok (coef_import * new_import + coef_rejets * new_rejets)

/-- `generer_solution_initiale` (lines 209-212): returns the deep copy of the
argument (the identity on values) together with the baseline total power it
stores in `self._puissance_totale_eqt_initiale`. -/
def generer_solution_initiale (solution : List Eqt) : List Eqt × ℚ :=
  (solution, consommation_equipements solution)

/-- Flip the `state` of the `i`-th usable element of the list (the element of
the deep copy that the `i`-th entry of `usable` aliases in the source). -/
def flipNthUsable : List Eqt → ℕ → List Eqt
  | [], _ => []
  | e :: rest, i =>
    if e.is_usable then
      if i = 0 then { e with state := !e.state } :: rest
      else e :: flipNthUsable rest (i - 1)
    else
      e :: flipNthUsable rest i

/-- `permuter_equipement` (lines 222-237): deep-copy the solution, pick an
element of the usable sublist with `random.choice` (modelled by the oracle
index `k` taken modulo the number of usable elements) and flip its `state`.
`random.choice` on an empty sequence raises `IndexError`. -/
def permuter_equipement (k : ℕ) (solution : List Eqt) : Except PyError (List Eqt) :=
  let usable := solution.filter fun e => e.is_usable
  if usable.length = 0 then .error .indexError
  else .ok (flipNthUsable solution (k % usable.length))

/-- Construction-time parameters of `SimulatedAnnealingAlgorithm.__init__`. -/
structure AlgoConfig where
  temperature_initiale : ℚ
  temperature_minimale : ℚ
  facteur_refroidissement : ℚ
  nombre_iterations : ℕ
deriving DecidableEq, Repr

/-- State of the annealing loop.  `visited` is a ghost trace: the objective of
each neighbour candidate evaluated, one per executed iteration. -/
structure LoopState where
  current : List Eqt
  best : List Eqt
  bestObj : ℚ
  temperature : ℚ
  visited : List ℚ
deriving DecidableEq, Repr

/-- One iteration of the annealing loop (body of the `for` at lines 120-165):
evaluate the current objective, draw a neighbour, evaluate it, accept it
unconditionally when strictly better (also updating the best when it improves
`calculer_objectif(meilleure_solution)`), otherwise accept it when the uniform
draw `u` is below `exp((objectif_actuel - objectif_voisin) / temperature)`
(Python raises `ZeroDivisionError` on `x / 0.0`), then cool the temperature. -/
noncomputable def recuitStep (ctx : Ctx) (facteur : ℚ) (kr : ℕ × ℝ)
    (s : LoopState) : Except PyError LoopState := do
  let objectif_actuel ← calculer_objectif ctx s.current
  let voisin ← permuter_equipement kr.1 s.current
  let objectif_voisin ← calculer_objectif ctx voisin
  let s := { s with visited := s.visited ++ [objectif_voisin] }
  let s' ←
    if objectif_voisin < objectif_actuel then do
      let objectif_meilleure ← calculer_objectif ctx s.best
      if objectif_voisin < objectif_meilleure then
        pure { s with current := voisin, best := voisin, bestObj := objectif_voisin }
      else
        pure { s with current := voisin }
    else
      if s.temperature = 0 then
        .error .zeroDivisionError
      else
        let probabilite :=
          Real.exp (((objectif_actuel - objectif_voisin : ℚ) : ℝ) / (s.temperature : ℝ))
        if kr.2 < probabilite then
          pure { s with current := voisin }
        else
          pure s
  pure { s' with temperature := s'.temperature * facteur }

/-- The annealing loop: at most `fuel` iterations (`range(nombre_iterations)`),
consuming oracle entries `R i, R (i+1), ...`, breaking after the first
iteration whose post-cooling temperature is below `tmin`. -/
noncomputable def recuitLoop (ctx : Ctx) (R : ℕ → ℕ × ℝ) (facteur tmin : ℚ) :
    ℕ → ℕ → LoopState → Except PyError LoopState
  | 0, _, s => .ok s
  | fuel + 1, i, s => do
    let s' ← recuitStep ctx facteur (R i) s
    if s'.temperature < tmin then .ok s'
    else recuitLoop ctx R facteur tmin fuel (i + 1) s'

/-- The loop state `recuit_simule` starts the annealing loop with, given the
working list and the initial objective. -/
def initState (cfg : AlgoConfig) (equipements : List Eqt) (obj0 : ℚ) : LoopState :=
  ⟨equipements, equipements, obj0, cfg.temperature_initiale, []⟩

/-- The `Ctx` that `recuit_simule` stores on `self` for a call with scalar
arguments `pc, sp, sc, bc, tx` and working list `equipements`. -/
def mkCtx (pc sp sc bc tx : ℚ) (equipements : List Eqt) : Ctx :=
  ⟨bc, sc, tx, pc, sp, (generer_solution_initiale equipements).2⟩

/-- `recuit_simule` (lines 50-171).  `none` models a Python `None` scalar
argument.  Returns the sentinel `([], -1, -1)` when the device list is empty
or a scalar is `None`; otherwise builds the working list, runs the annealing
loop and returns `(meilleure_solution, meilleure_objectif,
consommation_equipements meilleure_solution)`, propagating any exception. -/
noncomputable def recuit_simule (cfg : AlgoConfig) (R : ℕ → ℕ × ℝ)
    (devices : List (ManagedDevice α))
    (power_consumption solar_power_production sell_cost buy_cost
      sell_tax_percent : Option ℚ) :
    Except PyError (List Eqt × ℚ × ℚ) :=
  match power_consumption, solar_power_production, sell_cost, buy_cost,
      sell_tax_percent with
  | some pc, some sp, some sc, some bc, some tx =>
    if devices.length = 0 then .ok ([], -1, -1)
    else
      let equipements := devices.map toEqt
      let solution_actuelle := (generer_solution_initiale equipements).1
      let ctx := mkCtx pc sp sc bc tx equipements
      do
        let meilleure_objectif ← calculer_objectif ctx solution_actuelle
        let sF ← recuitLoop ctx R cfg.facteur_refroidissement
          cfg.temperature_minimale cfg.nombre_iterations 0
          (initState cfg solution_actuelle meilleure_objectif)
        pure (sF.best, sF.bestObj, consommation_equipements sF.best)
  | _, _, _, _, _ => .ok ([], -1, -1)

/-- The fixed-device frame property: `s` has the same length as `orig` and
agrees with `orig` (entirely, in particular on `state`) at every position
holding a non-usable device. -/
def preservesFixed (orig s : List Eqt) : Prop :=
  s.length = orig.length ∧
  ∀ (i : ℕ) (o : Eqt), orig[i]? = some o → o.is_usable = false → s[i]? = some o

/-- Loop-state objective invariant: `bestObj` is the objective of `best` and
is at most the objective of `current` (both defined). -/
def ObjInv (ctx : Ctx) (s : LoopState) : Prop :=
  calculer_objectif ctx s.best = .ok s.bestObj ∧
  ∃ oc, calculer_objectif ctx s.current = .ok oc ∧ s.bestObj ≤ oc

/-! ### Generic reduction lemmas for the `Except` monad -/

theorem ok_bind {ε α β : Type} (a : α) (f : α → Except ε β) :
    (Except.ok a >>= f : Except ε β) = f a := rfl

theorem err_bind {ε α β : Type} (e : ε) (f : α → Except ε β) :
    (Except.error e >>= f : Except ε β) = Except.error e := rfl

theorem pure_eq_ok {ε α : Type} (a : α) : (pure a : Except ε α) = Except.ok a := rfl

theorem bind_eq_ok {ε α β : Type} {m : Except ε α} {f : α → Except ε β} {b : β}
    (h : (m >>= f) = .ok b) : ∃ a, m = .ok a ∧ f a = .ok b := by
  cases m with
  | ok a => exact ⟨a, rfl, h⟩
  | error e => exact absurd h (by simp [err_bind])

/-! ### The objective function -/

/-- Closed form of `calculer_objectif` away from the zero denominator: the
two tariff weights applied to `max 0 new_net` and `max 0 (-new_net)`. -/
theorem calculer_objectif_eq_ok (ctx : Ctx) (solution : List Eqt)
    (h : ctx.cout_achat + ctx.cout_revente * (1 - ctx.taxe_revente / 100) ≠ 0) :
    calculer_objectif ctx solution =
      .ok ((ctx.cout_achat /
              (ctx.cout_achat + ctx.cout_revente * (1 - ctx.taxe_revente / 100))) *
            max 0 (ctx.consommation_net +
              (consommation_equipements solution - ctx.puissance_totale_eqt_initiale)) +
          ((ctx.cout_revente * (1 - ctx.taxe_revente / 100)) /
              (ctx.cout_achat + ctx.cout_revente * (1 - ctx.taxe_revente / 100))) *
            max 0 (-(ctx.consommation_net +
              (consommation_equipements solution - ctx.puissance_totale_eqt_initiale)))) := by
  simp only [calculer_objectif, if_neg h]
  rcases lt_or_le (ctx.consommation_net +
      (consommation_equipements solution - ctx.puissance_totale_eqt_initiale)) 0 with h0 | h0
  · rw [if_pos h0, if_neg (not_le.mpr h0), max_eq_left h0.le,
      max_eq_right (neg_nonneg.mpr h0.le)]
  · rw [if_neg (not_lt.mpr h0), if_pos (ge_iff_le.mpr h0), max_eq_right h0,
      max_eq_left (neg_nonpos.mpr h0)]

theorem calculer_objectif_eq_error (ctx : Ctx) (solution : List Eqt)
    (h : ctx.cout_achat + ctx.cout_revente * (1 - ctx.taxe_revente / 100) = 0) :
    calculer_objectif ctx solution = .error .zeroDivisionError := by
  simp only [calculer_objectif, if_pos h]

/-- When the objective succeeds it has the closed form above. -/
theorem calculer_objectif_ok_inv (ctx : Ctx) (solution : List Eqt) (q : ℚ)
    (h : calculer_objectif ctx solution = .ok q) :
    ctx.cout_achat + ctx.cout_revente * (1 - ctx.taxe_revente / 100) ≠ 0 := by
  intro h0
  rw [calculer_objectif_eq_error ctx solution h0] at h
  exact absurd h (by simp)

/-- Claim C1: for every solution evaluated during a solve call,
`objective(solution) = import_weight * grid_import + export_weight * grid_export`
where `new_net = net_consumption + (total_power(solution) - baseline_power)`,
`grid_import = max(0, new_net)`, `grid_export = max(0, -new_net)`,
`sell_price_after_tax = sell_cost * (1 - sell_tax_percent/100)`,
`import_weight = buy_cost / (buy_cost + sell_price_after_tax)` and
`export_weight = sell_price_after_tax / (buy_cost + sell_price_after_tax)`;
and the baseline of the context built by `recuit_simule` is the total active
power of the initial solution, computed once per call by
`generer_solution_initiale`. -/
theorem C1_objective_formula :
    (∀ (ctx : Ctx) (solution : List Eqt),
      ctx.cout_achat + ctx.cout_revente * (1 - ctx.taxe_revente / 100) ≠ 0 →
      calculer_objectif ctx solution =
        .ok ((ctx.cout_achat /
                (ctx.cout_achat + ctx.cout_revente * (1 - ctx.taxe_revente / 100))) *
              max 0 (ctx.consommation_net +
                (consommation_equipements solution - ctx.puissance_totale_eqt_initiale)) +
            ((ctx.cout_revente * (1 - ctx.taxe_revente / 100)) /
                (ctx.cout_achat + ctx.cout_revente * (1 - ctx.taxe_revente / 100))) *
              max 0 (-(ctx.consommation_net +
                (consommation_equipements solution - ctx.puissance_totale_eqt_initiale))))) ∧
    (∀ (pc sp sc bc tx : ℚ) (equipements : List Eqt),
      (mkCtx pc sp sc bc tx equipements).puissance_totale_eqt_initiale =
        consommation_equipements equipements ∧
      (generer_solution_initiale equipements).1 = equipements) :=
  ⟨calculer_objectif_eq_ok, fun _ _ _ _ _ _ => ⟨rfl, rfl⟩⟩

/-- Witness for C1 at a concrete input: two devices, one active 1000 W device,
baseline 0, net consumption -1200 W: import weight 50/79, export weight 29/79,
`new_net = -200` so the objective is `29/79 * 200`. -/
theorem C1_objective_formula_witness :
    ((15 : ℚ) + 10 * (1 - 13 / 100) ≠ 0) ∧
    calculer_objectif ⟨15, 10, 13, -1200, 1200, 0⟩ [⟨1000, "A", true, true⟩] =
      .ok ((15 / (15 + 10 * (1 - 13 / 100))) * max 0 (-1200 + (1000 - 0)) +
        ((10 * (1 - 13 / 100)) / (15 + 10 * (1 - 13 / 100))) * max 0 (-(-1200 + (1000 - 0)))) := by
  refine ⟨by norm_num, ?_⟩
  have h := C1_objective_formula.1 ⟨15, 10, 13, -1200, 1200, 0⟩
    [⟨1000, "A", true, true⟩] (by norm_num)
  simpa [consommation_equipements] using h

/-- Claim C7 (counterexample): with `buy_cost = -87/10`, `sell_cost = 10`,
`sell_tax_percent = 13` the denominator `buy_cost + sell_cost*(1 - 13/100)` is
zero and the code fails with a `ZeroDivisionError` raised by the division
itself, not with a named `InvalidTariff` error. -/
theorem C7_no_invalid_tariff_error :
    calculer_objectif ⟨-(87 / 10), 10, 13, 0, 0, 0⟩ [] = .error .zeroDivisionError ∧
    (Except.error .zeroDivisionError : Except PyError ℚ) ≠ .error .invalidTariff := by
  refine ⟨?_, by simp⟩
  exact calculer_objectif_eq_error _ _ (by norm_num)

/-- Claim C7 (amended): when `buy_cost + sell_cost * (1 - sell_tax_percent/100)`
is zero, `calculer_objectif` fails with the `ZeroDivisionError` raised by the
division; there is no prior explicit validation and no `InvalidTariff` error. -/
theorem C7_zero_denominator_divzero (ctx : Ctx) (solution : List Eqt)
    (h : ctx.cout_achat + ctx.cout_revente * (1 - ctx.taxe_revente / 100) = 0) :
    calculer_objectif ctx solution = .error .zeroDivisionError :=
  calculer_objectif_eq_error ctx solution h

/-- Witness for the amended C7 at a concrete input. -/
theorem C7_zero_denominator_divzero_witness :
    ((-29 / 10 : ℚ) + 10 * (1 - 71 / 100) = 0) ∧
    calculer_objectif ⟨-29 / 10, 10, 71, 5, 7, 3⟩ [⟨50, "B", true, false⟩] =
      .error .zeroDivisionError :=
  ⟨by norm_num, C7_zero_denominator_divzero _ _ (by norm_num)⟩

/-! ### Neighbour generation -/

/-- `flipNthUsable s i` (for `i` below the number of usable elements) is `s`
with exactly one usable element's `state` flipped. -/
theorem flipNthUsable_spec (s : List Eqt) (i : ℕ)
    (hi : i < (s.filter fun e => e.is_usable).length) :
    ∃ j o, s[j]? = some o ∧ o.is_usable = true ∧
      flipNthUsable s i = s.set j { o with state := !o.state } := by
  induction s generalizing i with
  | nil => simp at hi
  | cons e rest ih =>
    by_cases hu : e.is_usable
    · cases i with
      | zero => exact ⟨0, e, by simp, hu, by simp [flipNthUsable, hu]⟩
      | succ i' =>
        have hi' : i' < (rest.filter fun e => e.is_usable).length := by
          simp only [List.filter_cons, if_pos hu, List.length_cons] at hi
          omega
        obtain ⟨j, o, hjo, hou, hflip⟩ := ih i' hi'
        exact ⟨j + 1, o, by simpa using hjo, hou,
          by simp [flipNthUsable, hu, hflip, List.set_cons_succ]⟩
    · have hi' : i < (rest.filter fun e => e.is_usable).length := by
        simpa [List.filter_cons, hu] using hi
      obtain ⟨j, o, hjo, hou, hflip⟩ := ih i hi'
      exact ⟨j + 1, o, by simpa using hjo, hou,
        by simp [flipNthUsable, hu, hflip, List.set_cons_succ]⟩

/-- Inversion for a successful `permuter_equipement`. -/
theorem permuter_ok_inv (k : ℕ) (s v : List Eqt)
    (h : permuter_equipement k s = .ok v) :
    ∃ j o, s[j]? = some o ∧ o.is_usable = true ∧
      v = s.set j { o with state := !o.state } := by
  unfold permuter_equipement at h
  by_cases h0 : (s.filter fun e => e.is_usable).length = 0
  · rw [if_pos h0] at h
    exact absurd h (by simp)
  · rw [if_neg h0] at h
    obtain ⟨j, o, hjo, hou, hflip⟩ :=
      flipNthUsable_spec s (k % (s.filter fun e => e.is_usable).length)
        (Nat.mod_lt _ (Nat.pos_of_ne_zero h0))
    refine ⟨j, o, hjo, hou, ?_⟩
    have := h.symm
    simp only [Except.ok.injEq] at this
    rw [this, hflip]

theorem permuter_err (k : ℕ) (s : List Eqt)
    (h0 : (s.filter fun e => e.is_usable).length = 0) :
    permuter_equipement k s = .error .indexError := by
  simp [permuter_equipement, h0]

/-- A successful neighbour preserves the fixed-device frame. -/
theorem permuter_preservesFixed (k : ℕ) (orig s v : List Eqt)
    (hs : preservesFixed orig s) (h : permuter_equipement k s = .ok v) :
    preservesFixed orig v := by
  obtain ⟨j, o, hjo, hou, hv⟩ := permuter_ok_inv k s v h
  obtain ⟨hlen, hfix⟩ := hs
  constructor
  · rw [hv, List.length_set, hlen]
  · intro i oi hoi hun
    by_cases hij : i = j
    · subst hij
      have := hfix i oi hoi hun
      rw [this] at hjo
      simp only [Option.some.injEq] at hjo
      rw [hjo] at hun
      rw [hou] at hun
      exact absurd hun (by simp)
    · rw [hv, List.getElem?_set_ne (fun hh => hij hh.symm)]
      exact hfix i oi hoi hun

/-- Claim C8 (counterexample): on a solution whose only device is not usable,
neighbour generation fails with the `IndexError` raised by `random.choice` on
the empty sequence, not with a named `NoUsableDevice` error. -/
theorem C8_no_usable_gives_index_error :
    permuter_equipement 0 [⟨100, "A", false, false⟩] = .error .indexError ∧
    (Except.error .indexError : Except PyError (List Eqt)) ≠ .error .noUsableDevice := by
  refine ⟨?_, by simp⟩
  apply permuter_err
  simp [List.filter_cons]

/-- Claim C8 (amended): when the usable subset is empty, neighbour generation
fails with the `IndexError` of `random.choice` on an empty sequence; when it
is non-empty it returns an independent copy differing from the input in
exactly the flipped `state` of one usable device. -/
theorem C8_neighbour_generation (k : ℕ) (s : List Eqt) :
    ((s.filter fun e => e.is_usable).length = 0 →
      permuter_equipement k s = .error .indexError) ∧
    ((s.filter fun e => e.is_usable).length ≠ 0 →
      ∃ j o, s[j]? = some o ∧ o.is_usable = true ∧
        permuter_equipement k s = .ok (s.set j { o with state := !o.state })) := by
  constructor
  · exact permuter_err k s
  · intro h0
    obtain ⟨j, o, hjo, hou, hflip⟩ :=
      flipNthUsable_spec s (k % (s.filter fun e => e.is_usable).length)
        (Nat.mod_lt _ (Nat.pos_of_ne_zero h0))
    refine ⟨j, o, hjo, hou, ?_⟩
    rw [permuter_equipement, if_neg h0, hflip]

/-- Witness for the amended C8 at a concrete input with one usable device. -/
theorem C8_neighbour_generation_witness :
    ((([⟨5, "A", true, false⟩, ⟨7, "B", false, true⟩] : List Eqt).filter
        fun e => e.is_usable).length ≠ 0) ∧
    ∃ j o, (([⟨5, "A", true, false⟩, ⟨7, "B", false, true⟩] : List Eqt))[j]? = some o ∧
      o.is_usable = true ∧
      permuter_equipement 3 ([⟨5, "A", true, false⟩, ⟨7, "B", false, true⟩] : List Eqt) =
        .ok (([⟨5, "A", true, false⟩, ⟨7, "B", false, true⟩] : List Eqt).set j
          { o with state := !o.state }) :=
  ⟨by simp [List.filter_cons],
    (C8_neighbour_generation 3
      ([⟨5, "A", true, false⟩, ⟨7, "B", false, true⟩] : List Eqt)).2
      (by simp [List.filter_cons])⟩

/-- Claim C9: with `buy_cost > 0`, `sell_cost ≥ 0` and `sell_tax_percent ≤ 100`
the objective always succeeds with a non-negative value, in particular never
with the sentinel value `-1`. -/
theorem C9_objective_nonneg (ctx : Ctx) (solution : List Eqt)
    (hb : 0 < ctx.cout_achat) (hs : 0 ≤ ctx.cout_revente)
    (ht : ctx.taxe_revente ≤ 100) :
    ∃ q, calculer_objectif ctx solution = .ok q ∧ 0 ≤ q ∧ q ≠ -1 := by
  have himp : 0 ≤ ctx.cout_revente * (1 - ctx.taxe_revente / 100) := by
    apply mul_nonneg hs
    have : ctx.taxe_revente / 100 ≤ 1 := by
      rw [div_le_one (by norm_num : (0:ℚ) < 100)]
      exact ht
    linarith
  have hd : 0 < ctx.cout_achat + ctx.cout_revente * (1 - ctx.taxe_revente / 100) := by
    linarith
  refine ⟨_, calculer_objectif_eq_ok ctx solution (ne_of_gt hd), ?_, ?_⟩
  · have h1 : 0 ≤ ctx.cout_achat /
        (ctx.cout_achat + ctx.cout_revente * (1 - ctx.taxe_revente / 100)) :=
      div_nonneg hb.le hd.le
    have h2 : 0 ≤ (ctx.cout_revente * (1 - ctx.taxe_revente / 100)) /
        (ctx.cout_achat + ctx.cout_revente * (1 - ctx.taxe_revente / 100)) :=
      div_nonneg himp hd.le
    have h3 := le_max_left (0:ℚ) (ctx.consommation_net +
      (consommation_equipements solution - ctx.puissance_totale_eqt_initiale))
    have h4 := le_max_left (0:ℚ) (-(ctx.consommation_net +
      (consommation_equipements solution - ctx.puissance_totale_eqt_initiale)))
    have := add_nonneg (mul_nonneg h1 h3) (mul_nonneg h2 h4)
    linarith
  · intro hq
    have h1 : 0 ≤ ctx.cout_achat /
        (ctx.cout_achat + ctx.cout_revente * (1 - ctx.taxe_revente / 100)) :=
      div_nonneg hb.le hd.le
    have h2 : 0 ≤ (ctx.cout_revente * (1 - ctx.taxe_revente / 100)) /
        (ctx.cout_achat + ctx.cout_revente * (1 - ctx.taxe_revente / 100)) :=
      div_nonneg himp hd.le
    have h3 := le_max_left (0:ℚ) (ctx.consommation_net +
      (consommation_equipements solution - ctx.puissance_totale_eqt_initiale))
    have h4 := le_max_left (0:ℚ) (-(ctx.consommation_net +
      (consommation_equipements solution - ctx.puissance_totale_eqt_initiale)))
    have := add_nonneg (mul_nonneg h1 h3) (mul_nonneg h2 h4)
    rw [hq] at this
    linarith

/-- Witness for C9 at a concrete input: the default tariffs of the class. -/
theorem C9_objective_nonneg_witness :
    (0 < (15 : ℚ)) ∧ (0 ≤ (10 : ℚ)) ∧ ((13 : ℚ) ≤ 100) ∧
    ∃ q, calculer_objectif ⟨15, 10, 13, -2350, 4000, 0⟩
        [⟨1000, "A", true, true⟩, ⟨500, "B", false, true⟩] = .ok q ∧ 0 ≤ q ∧ q ≠ -1 :=
  ⟨by norm_num, by norm_num, by norm_num,
    C9_objective_nonneg ⟨15, 10, 13, -2350, 4000, 0⟩
      [⟨1000, "A", true, true⟩, ⟨500, "B", false, true⟩]
      (by norm_num) (by norm_num) (by norm_num)⟩

/-! ### One iteration of the annealing loop -/

/-- Inversion for a successful `recuitStep`: what one loop iteration does. -/
theorem recuitStep_ok_inv (ctx : Ctx) (f : ℚ) (kr : ℕ × ℝ) (s s' : LoopState)
    (h : recuitStep ctx f kr s = .ok s') :
    ∃ oa v ov, calculer_objectif ctx s.current = .ok oa ∧
      permuter_equipement kr.1 s.current = .ok v ∧
      calculer_objectif ctx v = .ok ov ∧
      s'.visited = s.visited ++ [ov] ∧
      s'.temperature = s.temperature * f ∧
      ((ov < oa ∧ ∃ ob, calculer_objectif ctx s.best = .ok ob ∧
          ((ov < ob ∧ s'.current = v ∧ s'.best = v ∧ s'.bestObj = ov) ∨
           (¬ ov < ob ∧ s'.current = v ∧ s'.best = s.best ∧ s'.bestObj = s.bestObj))) ∨
       (¬ ov < oa ∧ s.temperature ≠ 0 ∧ s'.best = s.best ∧ s'.bestObj = s.bestObj ∧
          (s'.current = v ∨ s'.current = s.current))) := by
  unfold recuitStep at h
  obtain ⟨oa, hoa, h⟩ := bind_eq_ok h
  dsimp only at h
  obtain ⟨v, hv, h⟩ := bind_eq_ok h
  obtain ⟨ov, hov, h⟩ := bind_eq_ok h
  refine ⟨oa, v, ov, hoa, hv, hov, ?_⟩
  by_cases hlt : ov < oa
  · rw [if_pos hlt] at h
    obtain ⟨ob, hob, h⟩ := bind_eq_ok h
    by_cases hlt2 : ov < ob
    · rw [if_pos hlt2] at h
      simp only [pure_eq_ok, ok_bind, Except.ok.injEq] at h
      subst h
      exact ⟨rfl, rfl, Or.inl ⟨hlt, ob, hob, Or.inl ⟨hlt2, rfl, rfl, rfl⟩⟩⟩
    · rw [if_neg hlt2] at h
      simp only [pure_eq_ok, ok_bind, Except.ok.injEq] at h
      subst h
      exact ⟨rfl, rfl, Or.inl ⟨hlt, ob, hob, Or.inr ⟨hlt2, rfl, rfl, rfl⟩⟩⟩
  · rw [if_neg hlt] at h
    by_cases hT : s.temperature = 0
    · rw [if_pos hT] at h
      exact absurd h (by simp [err_bind])
    · rw [if_neg hT] at h
      by_cases hu : kr.2 < Real.exp (((oa - ov : ℚ) : ℝ) / (s.temperature : ℝ))
      · rw [if_pos hu] at h
        simp only [pure_eq_ok, ok_bind, Except.ok.injEq] at h
        subst h
        exact ⟨rfl, rfl, Or.inr ⟨hlt, hT, rfl, rfl, Or.inl rfl⟩⟩
      · rw [if_neg hu] at h
        simp only [pure_eq_ok, ok_bind, Except.ok.injEq] at h
        subst h
        exact ⟨rfl, rfl, Or.inr ⟨hlt, hT, rfl, rfl, Or.inr rfl⟩⟩

/-- Claim C2: in an iteration where the candidate's objective is not below the
current one, the candidate becomes the new current solution exactly when the
uniform draw `u` satisfies `u < exp((objective(current) - objective(candidate))
/ temperature)`, and neither the best solution nor the best objective is
updated in that branch. -/
theorem C2_metropolis_acceptance (ctx : Ctx) (f : ℚ) (kr : ℕ × ℝ) (s : LoopState)
    (oa : ℚ) (v : List Eqt) (ov : ℚ)
    (hoa : calculer_objectif ctx s.current = .ok oa)
    (hv : permuter_equipement kr.1 s.current = .ok v)
    (hov : calculer_objectif ctx v = .ok ov)
    (hge : ¬ ov < oa) (hT : s.temperature ≠ 0) :
    ∃ s', recuitStep ctx f kr s = .ok s' ∧
      s'.best = s.best ∧ s'.bestObj = s.bestObj ∧
      (kr.2 < Real.exp (((oa - ov : ℚ) : ℝ) / (s.temperature : ℝ)) → s'.current = v) ∧
      (¬ kr.2 < Real.exp (((oa - ov : ℚ) : ℝ) / (s.temperature : ℝ)) →
        s'.current = s.current) := by
  unfold recuitStep
  rw [hoa, ok_bind]
  dsimp only
  rw [hv, ok_bind]
  rw [hov, ok_bind]
  rw [if_neg hge, if_neg hT]
  by_cases hu : kr.2 < Real.exp (((oa - ov : ℚ) : ℝ) / (s.temperature : ℝ))
  · rw [if_pos hu]
    exact ⟨_, rfl, rfl, rfl, fun _ => rfl, fun hc => absurd hu hc⟩
  · rw [if_neg hu]
    exact ⟨_, rfl, rfl, rfl, fun hc => absurd hc hu, fun _ => rfl⟩

/-- Witness for C2 at a concrete input: one usable 0 W device, equal
objectives on both sides, so the probabilistic branch is taken. -/
theorem C2_metropolis_acceptance_witness :
    (calculer_objectif ⟨15, 10, 13, 0, 0, 0⟩ [⟨0, "A", false, true⟩] = .ok 0) ∧
    (permuter_equipement 0 [⟨0, "A", false, true⟩] = .ok [⟨0, "A", true, true⟩]) ∧
    (calculer_objectif ⟨15, 10, 13, 0, 0, 0⟩ [⟨0, "A", true, true⟩] = .ok 0) ∧
    ∃ s', recuitStep ⟨15, 10, 13, 0, 0, 0⟩ (19/20) (0, (1/2 : ℝ))
        ⟨[⟨0, "A", false, true⟩], [⟨0, "A", false, true⟩], 0, 1000, []⟩ = .ok s' ∧
      s'.best = [⟨0, "A", false, true⟩] ∧ s'.bestObj = 0 ∧
      (((1/2 : ℝ)) < Real.exp ((((0 : ℚ) - 0 : ℚ) : ℝ) / ((1000 : ℚ) : ℝ)) →
        s'.current = [⟨0, "A", true, true⟩]) ∧
      (¬ ((1/2 : ℝ)) < Real.exp ((((0 : ℚ) - 0 : ℚ) : ℝ) / ((1000 : ℚ) : ℝ)) →
        s'.current = [⟨0, "A", false, true⟩]) := by
  have hoa : calculer_objectif ⟨15, 10, 13, 0, 0, 0⟩ [⟨0, "A", false, true⟩] = .ok 0 := by
    norm_num [calculer_objectif, consommation_equipements, List.filter_cons]
  have hv : permuter_equipement 0 [⟨0, "A", false, true⟩] = .ok [⟨0, "A", true, true⟩] := by
    norm_num [permuter_equipement, List.filter_cons, flipNthUsable]
  have hov : calculer_objectif ⟨15, 10, 13, 0, 0, 0⟩ [⟨0, "A", true, true⟩] = .ok 0 := by
    norm_num [calculer_objectif, consommation_equipements, List.filter_cons]
  exact ⟨hoa, hv, hov,
    C2_metropolis_acceptance ⟨15, 10, 13, 0, 0, 0⟩ (19/20) (0, (1/2 : ℝ))
      ⟨[⟨0, "A", false, true⟩], [⟨0, "A", false, true⟩], 0, 1000, []⟩ 0
      [⟨0, "A", true, true⟩] 0 hoa hv hov (by norm_num) (by norm_num)⟩

/-! ### The annealing loop: cooling schedule -/

/-- Unfolding a successful loop run with positive fuel. -/
theorem recuitLoop_succ_ok (ctx : Ctx) (R : ℕ → ℕ × ℝ) (f tmin : ℚ)
    (fuel i : ℕ) (s s' : LoopState)
    (h : recuitLoop ctx R f tmin (fuel + 1) i s = .ok s') :
    ∃ s₁, recuitStep ctx f (R i) s = .ok s₁ ∧
      ((s₁.temperature < tmin ∧ s' = s₁) ∨
       (¬ s₁.temperature < tmin ∧
         recuitLoop ctx R f tmin fuel (i + 1) s₁ = .ok s')) := by
  unfold recuitLoop at h
  obtain ⟨s₁, hstep, h⟩ := bind_eq_ok h
  refine ⟨s₁, hstep, ?_⟩
  by_cases hc : s₁.temperature < tmin
  · rw [if_pos hc] at h
    simp only [Except.ok.injEq] at h
    exact Or.inl ⟨hc, h.symm⟩
  · rw [if_neg hc] at h
    exact Or.inr ⟨hc, h⟩

/-- Temperature bookkeeping of a successful loop run: the number of executed
iterations `m` is the growth of the ghost trace, the final temperature is the
initial one times `cooling_factor ^ m`, every non-final executed iteration
ends with temperature at least the floor, and a run that stops before
exhausting the fuel ends below the floor. -/
theorem recuitLoop_temperature (ctx : Ctx) (R : ℕ → ℕ × ℝ) (f tmin : ℚ)
    (hf0 : 0 < f) :
    ∀ (fuel i : ℕ) (s s' : LoopState), 0 < s.temperature →
    recuitLoop ctx R f tmin fuel i s = .ok s' →
    s.visited.length ≤ s'.visited.length ∧
    s'.visited.length - s.visited.length ≤ fuel ∧
    s'.temperature = s.temperature * f ^ (s'.visited.length - s.visited.length) ∧
    (∀ j, 0 < j → j < s'.visited.length - s.visited.length →
      tmin ≤ s.temperature * f ^ j) ∧
    (s'.visited.length - s.visited.length < fuel → s'.temperature < tmin) := by
  intro fuel
  induction fuel with
  | zero =>
    intro i s s' hT h
    simp only [recuitLoop, Except.ok.injEq] at h
    subst h
    exact ⟨le_rfl, by omega, by simp, fun j hj hj' => absurd hj' (by omega),
      fun hc => absurd hc (by omega)⟩
  | succ fuel ih =>
    intro i s s' hT h
    obtain ⟨s₁, hstep, hrest⟩ := recuitLoop_succ_ok ctx R f tmin fuel i s s' h
    obtain ⟨oa, v, ov, hoa, hv, hov, hvis, htemp, _⟩ :=
      recuitStep_ok_inv ctx f (R i) s s₁ hstep
    have hlen : s₁.visited.length = s.visited.length + 1 := by
      rw [hvis]; simp
    rcases hrest with ⟨hcool, rfl⟩ | ⟨hcool, hloop⟩
    · refine ⟨by omega, by omega, ?_, ?_, fun _ => hcool⟩
      · have hm : s'.visited.length - s.visited.length = 1 := by omega
        rw [hm, pow_one, htemp]
      · intro j hj hj'
        omega
    · have hT₁ : 0 < s₁.temperature := by
        rw [htemp]; exact mul_pos hT hf0
      obtain ⟨l1, l2, l3, l4, l5⟩ := ih (i + 1) s₁ s' hT₁ hloop
      have hm : s'.visited.length - s.visited.length =
          (s'.visited.length - s₁.visited.length) + 1 := by omega
      refine ⟨by omega, by omega, ?_, ?_, ?_⟩
      · rw [hm, l3, htemp, pow_succ]
        ring
      · intro j hj0 hjm
        cases j with
        | zero => omega
        | succ j' =>
          rcases Nat.eq_zero_or_pos j' with h0 | hpos
          · subst h0
            rw [pow_one, ← htemp]
            exact le_of_not_lt hcool
          · have hj'm : j' < s'.visited.length - s₁.visited.length := by omega
            calc tmin ≤ s₁.temperature * f ^ j' := l4 j' hpos hj'm
              _ = s.temperature * f ^ (j' + 1) := by rw [htemp, pow_succ]; ring
      · intro hlt
        exact l5 (by omega)

/-- Claim C3: with `cooling_factor ∈ (0,1)` and positive initial temperature,
the temperature after each iteration is the previous temperature times the
cooling factor (hence strictly decreasing); a run executes at most
`max_iterations` iterations (the ghost trace grows by one per executed
iteration), the final temperature is `initial * factor ^ iterations`, every
non-final executed iteration ends with temperature at least the minimum, and a
run that stops before exhausting the iteration budget ends with temperature
below the minimum. -/
theorem C3_cooling_schedule (ctx : Ctx) (R : ℕ → ℕ × ℝ) (f tmin : ℚ)
    (hf0 : 0 < f) (hf1 : f < 1) :
    (∀ (kr : ℕ × ℝ) (s s' : LoopState), recuitStep ctx f kr s = .ok s' →
      s'.temperature = s.temperature * f ∧
      (0 < s.temperature → s'.temperature < s.temperature)) ∧
    (∀ (fuel i : ℕ) (s s' : LoopState), 0 < s.temperature →
      recuitLoop ctx R f tmin fuel i s = .ok s' →
      s.visited.length ≤ s'.visited.length ∧
      s'.visited.length - s.visited.length ≤ fuel ∧
      s'.temperature = s.temperature * f ^ (s'.visited.length - s.visited.length) ∧
      (∀ j, 0 < j → j < s'.visited.length - s.visited.length →
        tmin ≤ s.temperature * f ^ j) ∧
      (s'.visited.length - s.visited.length < fuel → s'.temperature < tmin)) := by
  constructor
  · intro kr s s' hstep
    obtain ⟨_, _, _, _, _, _, _, htemp, _⟩ := recuitStep_ok_inv ctx f kr s s' hstep
    refine ⟨htemp, fun hT => ?_⟩
    rw [htemp]
    exact mul_lt_of_lt_one_right hT hf1
  · exact recuitLoop_temperature ctx R f tmin hf0

/-- Witness for C3: a concrete one-iteration run (the candidate turning the
100 W device off is strictly better, temperature cools from 1000 to 950). -/
theorem C3_cooling_schedule_witness :
    (0 < (19/20 : ℚ)) ∧ ((19/20 : ℚ) < 1) ∧ (0 < (1000 : ℚ)) ∧
    ∃ s', recuitLoop ⟨10, 10, 50, 150, 0, 100⟩ (fun _ => (0, (0:ℝ))) (19/20) (1/10) 1 0
        ⟨[⟨100, "A", true, true⟩], [⟨100, "A", true, true⟩], 100, 1000, []⟩ = .ok s' ∧
      ([] : List ℚ).length ≤ s'.visited.length ∧
      s'.visited.length - ([] : List ℚ).length ≤ 1 ∧
      s'.temperature = 1000 * (19/20) ^ (s'.visited.length - ([] : List ℚ).length) ∧
      (∀ j, 0 < j → j < s'.visited.length - ([] : List ℚ).length →
        (1/10 : ℚ) ≤ 1000 * (19/20) ^ j) ∧
      (s'.visited.length - ([] : List ℚ).length < 1 → s'.temperature < 1/10) := by
  have heval : recuitLoop ⟨10, 10, 50, 150, 0, 100⟩ (fun _ => (0, (0:ℝ)))
      (19/20) (1/10) 1 0
      ⟨[⟨100, "A", true, true⟩], [⟨100, "A", true, true⟩], 100, 1000, []⟩ =
      .ok ⟨[⟨100, "A", false, true⟩], [⟨100, "A", false, true⟩], 100/3, 950, [100/3]⟩ := by
    norm_num [recuitLoop, recuitStep, calculer_objectif, consommation_equipements,
      permuter_equipement, flipNthUsable, List.filter_cons, ok_bind, err_bind, pure_eq_ok]
  exact ⟨by norm_num, by norm_num, by norm_num, _, heval,
    (C3_cooling_schedule ⟨10, 10, 50, 150, 0, 100⟩ (fun _ => (0, (0:ℝ))) (19/20) (1/10)
      (by norm_num) (by norm_num)).2 1 0
      ⟨[⟨100, "A", true, true⟩], [⟨100, "A", true, true⟩], 100, 1000, []⟩
      _ (by norm_num) heval⟩

/-! ### The annealing loop: the best solution is a running minimum -/

/-- One step preserves the objective invariant, never increases the best
objective, and the best objective stays below the new candidate's objective. -/
theorem recuitStep_objInv (ctx : Ctx) (f : ℚ) (kr : ℕ × ℝ) (s s' : LoopState)
    (hinv : ObjInv ctx s) (h : recuitStep ctx f kr s = .ok s') :
    ObjInv ctx s' ∧ s'.bestObj ≤ s.bestObj ∧
    ∃ ov, s'.visited = s.visited ++ [ov] ∧ s'.bestObj ≤ ov := by
  obtain ⟨hbest, oc, hoc, hbc⟩ := hinv
  obtain ⟨oa, v, ov, hoa, hv, hov, hvis, htemp, hbr⟩ := recuitStep_ok_inv ctx f kr s s' h
  have hoaeq : oa = oc := by
    rw [hoa] at hoc
    exact (Except.ok.injEq _ _ ▸ hoc)
  subst hoaeq
  rcases hbr with ⟨hlt, ob, hob, hbr2⟩ | ⟨hnlt, hT, hbst, hbo, hcurd⟩
  · have hobeq : ob = s.bestObj := by
      rw [hbest] at hob
      exact (Except.ok.injEq _ _ ▸ hob).symm
    subst hobeq
    rcases hbr2 with ⟨hlt2, hcur, hbst, hbo⟩ | ⟨hnlt2, hcur, hbst, hbo⟩
    · refine ⟨⟨?_, ov, ?_, ?_⟩, ?_, ov, hvis, ?_⟩
      · rw [hbst, hbo]; exact hov
      · rw [hcur]; exact hov
      · rw [hbo]
      · rw [hbo]; exact le_of_lt hlt2
      · rw [hbo]
    · refine ⟨⟨?_, ov, ?_, ?_⟩, ?_, ov, hvis, ?_⟩
      · rw [hbst, hbo]; exact hbest
      · rw [hcur]; exact hov
      · rw [hbo]; exact le_of_not_lt hnlt2
      · rw [hbo]
      · rw [hbo]; exact le_of_not_lt hnlt2
  · have hbov : s.bestObj ≤ ov := le_trans hbc (le_of_not_lt hnlt)
    refine ⟨⟨?_, ?_⟩, ?_, ov, hvis, ?_⟩
    · rw [hbst, hbo]; exact hbest
    · rcases hcurd with hcur | hcur
      · exact ⟨ov, by rw [hcur]; exact hov, by rw [hbo]; exact hbov⟩
      · exact ⟨oa, by rw [hcur]; exact hoc, by rw [hbo]; exact hbc⟩
    · rw [hbo]
    · rw [hbo]; exact hbov

/-- Across a whole run, the best objective is a running minimum: it never
increases, and the final best objective is below the objective of every
candidate recorded in the ghost trace. -/
theorem recuitLoop_objInv (ctx : Ctx) (R : ℕ → ℕ × ℝ) (f tmin : ℚ) :
    ∀ (fuel i : ℕ) (s s' : LoopState), ObjInv ctx s →
    recuitLoop ctx R f tmin fuel i s = .ok s' →
    ObjInv ctx s' ∧ s'.bestObj ≤ s.bestObj ∧
    ∀ o ∈ s'.visited, o ∈ s.visited ∨ s'.bestObj ≤ o := by
  intro fuel
  induction fuel with
  | zero =>
    intro i s s' hinv h
    simp only [recuitLoop, Except.ok.injEq] at h
    subst h
    exact ⟨hinv, le_rfl, fun o ho => Or.inl ho⟩
  | succ fuel ih =>
    intro i s s' hinv h
    obtain ⟨s₁, hstep, hrest⟩ := recuitLoop_succ_ok ctx R f tmin fuel i s s' h
    obtain ⟨hinv₁, hle₁, ov, hvis₁, hov₁⟩ := recuitStep_objInv ctx f (R i) s s₁ hinv hstep
    rcases hrest with ⟨hcool, rfl⟩ | ⟨hcool, hloop⟩
    · refine ⟨hinv₁, hle₁, fun o ho => ?_⟩
      rw [hvis₁] at ho
      rcases List.mem_append.mp ho with h1 | h1
      · exact Or.inl h1
      · simp only [List.mem_singleton] at h1
        subst h1
        exact Or.inr hov₁
    · obtain ⟨hinv', hle', hmem⟩ := ih (i + 1) s₁ s' hinv₁ hloop
      refine ⟨hinv', le_trans hle' hle₁, fun o ho => ?_⟩
      rcases hmem o ho with h1 | h1
      · rw [hvis₁] at h1
        rcases List.mem_append.mp h1 with h2 | h2
        · exact Or.inl h2
        · simp only [List.mem_singleton] at h2
          subst h2
          exact Or.inr (le_trans hle' hov₁)
      · exact Or.inr h1

/-- Claim C4: starting from a state whose best objective is the objective of
its best solution and is at most the objective of the current solution (as in
the initial state of `recuit_simule`, where best = current = initial solution),
the best objective after any run never exceeds the starting best objective
(hence the objective of the initial solution), is at most the objective of
every candidate visited during the run, and the invariant is maintained, so
the running best never increases from one iteration to the next; moreover
`recuit_simule` starts the loop with best = current = initial solution,
best objective = initial objective and an empty trace. -/
theorem C4_best_running_min (ctx : Ctx) (R : ℕ → ℕ × ℝ) (f tmin : ℚ)
    (fuel i : ℕ) (s s' : LoopState) (hinv : ObjInv ctx s)
    (h : recuitLoop ctx R f tmin fuel i s = .ok s') :
    s'.bestObj ≤ s.bestObj ∧
    (∀ o ∈ s'.visited, o ∈ s.visited ∨ s'.bestObj ≤ o) ∧
    ObjInv ctx s' ∧
    (∀ (cfg : AlgoConfig) (eqts : List Eqt) (obj0 : ℚ),
      (initState cfg eqts obj0).bestObj = obj0 ∧
      (initState cfg eqts obj0).visited = [] ∧
      (initState cfg eqts obj0).best = eqts ∧
      (initState cfg eqts obj0).current = eqts) := by
  obtain ⟨hinv', hle, hmem⟩ := recuitLoop_objInv ctx R f tmin fuel i s s' hinv h
  exact ⟨hle, hmem, hinv', fun _ _ _ => ⟨rfl, rfl, rfl, rfl⟩⟩

/-- Witness for C4: a concrete one-iteration run in which the candidate
(200 W device turned off) improves the objective from 200 to 200/3. -/
theorem C4_best_running_min_witness :
    ObjInv ⟨10, 10, 50, 300, 0, 200⟩
      ⟨[⟨200, "A", true, true⟩], [⟨200, "A", true, true⟩], 200, 1000, []⟩ ∧
    ∃ s', recuitLoop ⟨10, 10, 50, 300, 0, 200⟩ (fun _ => (0, (0:ℝ))) (19/20) (1/10) 1 0
        ⟨[⟨200, "A", true, true⟩], [⟨200, "A", true, true⟩], 200, 1000, []⟩ = .ok s' ∧
      s'.bestObj ≤ 200 ∧
      (∀ o ∈ s'.visited, o ∈ ([] : List ℚ) ∨ s'.bestObj ≤ o) ∧
      ObjInv ⟨10, 10, 50, 300, 0, 200⟩ s' := by
  have hinv : ObjInv ⟨10, 10, 50, 300, 0, 200⟩
      ⟨[⟨200, "A", true, true⟩], [⟨200, "A", true, true⟩], 200, 1000, []⟩ := by
    refine ⟨?_, 200, ?_, le_rfl⟩ <;>
      norm_num [calculer_objectif, consommation_equipements, List.filter_cons]
  have heval : recuitLoop ⟨10, 10, 50, 300, 0, 200⟩ (fun _ => (0, (0:ℝ)))
      (19/20) (1/10) 1 0
      ⟨[⟨200, "A", true, true⟩], [⟨200, "A", true, true⟩], 200, 1000, []⟩ =
      .ok ⟨[⟨200, "A", false, true⟩], [⟨200, "A", false, true⟩], 200/3, 950, [200/3]⟩ := by
    norm_num [recuitLoop, recuitStep, calculer_objectif, consommation_equipements,
      permuter_equipement, flipNthUsable, List.filter_cons, ok_bind, err_bind, pure_eq_ok]
  obtain ⟨h1, h2, h3, _⟩ := C4_best_running_min ⟨10, 10, 50, 300, 0, 200⟩
    (fun _ => (0, (0:ℝ))) (19/20) (1/10) 1 0
    ⟨[⟨200, "A", true, true⟩], [⟨200, "A", true, true⟩], 200, 1000, []⟩
    _ hinv heval
  exact ⟨hinv, _, heval, h1, h2, h3⟩

/-! ### The solve entrypoint: normal-path characterisation -/

/-- With all scalars present and a non-empty device list, `recuit_simule` is
the annealing pipeline over the working list `devices.map toEqt`. -/
theorem recuit_simule_some_ne_nil {α : Type} (cfg : AlgoConfig) (R : ℕ → ℕ × ℝ)
    (devices : List (ManagedDevice α)) (pc sp sc bc tx : ℚ)
    (hne : devices.length ≠ 0) :
    recuit_simule cfg R devices (some pc) (some sp) (some sc) (some bc) (some tx) =
      (calculer_objectif (mkCtx pc sp sc bc tx (devices.map toEqt))
          (devices.map toEqt) >>= fun m =>
        recuitLoop (mkCtx pc sp sc bc tx (devices.map toEqt)) R
          cfg.facteur_refroidissement cfg.temperature_minimale
          cfg.nombre_iterations 0
          (initState cfg (devices.map toEqt) m) >>= fun sF =>
        pure (sF.best, sF.bestObj, consommation_equipements sF.best)) := by
  unfold recuit_simule
  dsimp only
  rw [if_neg hne]
  rfl

/-- Inversion of a normally-returning solve call. -/
theorem recuit_simule_ok_inv {α : Type} (cfg : AlgoConfig) (R : ℕ → ℕ × ℝ)
    (devices : List (ManagedDevice α)) (pc sp sc bc tx : ℚ)
    (sol : List Eqt) (obj pw : ℚ) (hne : devices.length ≠ 0)
    (h : recuit_simule cfg R devices (some pc) (some sp) (some sc) (some bc)
      (some tx) = .ok (sol, obj, pw)) :
    ∃ m sF,
      calculer_objectif (mkCtx pc sp sc bc tx (devices.map toEqt))
        (devices.map toEqt) = .ok m ∧
      recuitLoop (mkCtx pc sp sc bc tx (devices.map toEqt)) R
        cfg.facteur_refroidissement cfg.temperature_minimale
        cfg.nombre_iterations 0 (initState cfg (devices.map toEqt) m) = .ok sF ∧
      sol = sF.best ∧ obj = sF.bestObj ∧ pw = consommation_equipements sF.best := by
  rw [recuit_simule_some_ne_nil cfg R devices pc sp sc bc tx hne] at h
  obtain ⟨m, hm, h⟩ := bind_eq_ok h
  obtain ⟨sF, hsF, h⟩ := bind_eq_ok h
  rw [pure_eq_ok] at h
  simp only [Except.ok.injEq, Prod.mk.injEq] at h
  obtain ⟨h1, h2, h3⟩ := h
  exact ⟨m, sF, hm, hsF, h1.symm, h2.symm, h3.symm⟩

/-! ### Fixed (non-usable) devices are never toggled -/

theorem recuitStep_preservesFixed (orig : List Eqt) (ctx : Ctx) (f : ℚ)
    (kr : ℕ × ℝ) (s s' : LoopState)
    (hc : preservesFixed orig s.current) (hb : preservesFixed orig s.best)
    (h : recuitStep ctx f kr s = .ok s') :
    preservesFixed orig s'.current ∧ preservesFixed orig s'.best := by
  obtain ⟨oa, v, ov, hoa, hv, hov, hvis, htemp, hbr⟩ := recuitStep_ok_inv ctx f kr s s' h
  have hvfix : preservesFixed orig v :=
    permuter_preservesFixed kr.1 orig s.current v hc hv
  rcases hbr with ⟨_, ob, _, ⟨_, hcur, hbst, _⟩ | ⟨_, hcur, hbst, _⟩⟩ |
    ⟨_, _, hbst, _, hcurd⟩
  · exact ⟨by rw [hcur]; exact hvfix, by rw [hbst]; exact hvfix⟩
  · exact ⟨by rw [hcur]; exact hvfix, by rw [hbst]; exact hb⟩
  · refine ⟨?_, by rw [hbst]; exact hb⟩
    rcases hcurd with hcur | hcur
    · rw [hcur]; exact hvfix
    · rw [hcur]; exact hc

theorem recuitLoop_preservesFixed (orig : List Eqt) (ctx : Ctx) (R : ℕ → ℕ × ℝ)
    (f tmin : ℚ) :
    ∀ (fuel i : ℕ) (s s' : LoopState),
    preservesFixed orig s.current → preservesFixed orig s.best →
    recuitLoop ctx R f tmin fuel i s = .ok s' →
    preservesFixed orig s'.current ∧ preservesFixed orig s'.best := by
  intro fuel
  induction fuel with
  | zero =>
    intro i s s' hc hb h
    simp only [recuitLoop, Except.ok.injEq] at h
    subst h
    exact ⟨hc, hb⟩
  | succ fuel ih =>
    intro i s s' hc hb h
    obtain ⟨s₁, hstep, hrest⟩ := recuitLoop_succ_ok ctx R f tmin fuel i s s' h
    obtain ⟨hc₁, hb₁⟩ := recuitStep_preservesFixed orig ctx f (R i) s s₁ hc hb hstep
    rcases hrest with ⟨_, rfl⟩ | ⟨_, hloop⟩
    · exact ⟨hc₁, hb₁⟩
    · exact ih (i + 1) s₁ s' hc₁ hb₁ hloop

theorem preservesFixed_refl (l : List Eqt) : preservesFixed l l :=
  ⟨rfl, fun _ _ h _ => h⟩

/-- Claim C5: devices with `is_usable = false` keep their `state` everywhere.
Part 1 (loop level): if the current and best solutions agree with the input
working list on all non-usable positions, so do the current and best solutions
after any number of iterations, as well as every neighbour candidate drawn
from such a state.  Part 2 (solve level): a normally-returning solve call
returns a best solution whose entry at every non-usable device position is
exactly the working copy of that device, whose `state` is the device's
`is_active` from the input snapshot. -/
theorem C5_unusable_states_frozen :
    (∀ (orig : List Eqt) (ctx : Ctx) (R : ℕ → ℕ × ℝ) (f tmin : ℚ)
      (fuel i : ℕ) (s s' : LoopState),
      preservesFixed orig s.current → preservesFixed orig s.best →
      recuitLoop ctx R f tmin fuel i s = .ok s' →
      preservesFixed orig s'.current ∧ preservesFixed orig s'.best ∧
      (∀ (k : ℕ) (v : List Eqt), permuter_equipement k s'.current = .ok v →
        preservesFixed orig v)) ∧
    (∀ (α : Type) (cfg : AlgoConfig) (R : ℕ → ℕ × ℝ)
      (devices : List (ManagedDevice α)) (pc sp sc bc tx : ℚ)
      (sol : List Eqt) (obj pw : ℚ),
      recuit_simule cfg R devices (some pc) (some sp) (some sc) (some bc)
        (some tx) = .ok (sol, obj, pw) →
      devices.length ≠ 0 →
      ∀ (i : ℕ) (d : ManagedDevice α), devices[i]? = some d →
        d.is_usable = false →
        sol[i]? = some (toEqt d) ∧ (toEqt d).state = d.is_active) := by
  constructor
  · intro orig ctx R f tmin fuel i s s' hc hb h
    obtain ⟨hc', hb'⟩ := recuitLoop_preservesFixed orig ctx R f tmin fuel i s s' hc hb h
    exact ⟨hc', hb', fun k v hv => permuter_preservesFixed k orig s'.current v hc' hv⟩
  · intro α cfg R devices pc sp sc bc tx sol obj pw h hne i d hd hun
    obtain ⟨m, sF, hm, hloop, hsol, hobj, hpw⟩ :=
      recuit_simule_ok_inv cfg R devices pc sp sc bc tx sol obj pw hne h
    obtain ⟨_, hbfix⟩ := recuitLoop_preservesFixed (devices.map toEqt)
      (mkCtx pc sp sc bc tx (devices.map toEqt)) R
      cfg.facteur_refroidissement cfg.temperature_minimale
      cfg.nombre_iterations 0 (initState cfg (devices.map toEqt) m) sF
      (preservesFixed_refl _) (preservesFixed_refl _) hloop
    have horig : (devices.map toEqt)[i]? = some (toEqt d) := by
      rw [List.getElem?_map, hd]
      rfl
    have hust : (toEqt d).is_usable = false := hun
    refine ⟨?_, rfl⟩
    rw [hsol]
    exact hbfix.2 i (toEqt d) horig hust

/-- Witness for C5 at a concrete solve call with one non-usable device and a
zero-iteration budget. -/
theorem C5_unusable_states_frozen_witness :
    (recuit_simule ⟨1000, 1/10, 19/20, 0⟩ (fun _ => (0, (0:ℝ)))
        [(⟨"A", 50, true, false, ()⟩ : ManagedDevice Unit)]
        (some 100) (some 0) (some 10) (some 15) (some 13) =
      .ok ([⟨50, "A", true, false⟩], 5000/79, 50)) ∧
    (([(⟨"A", 50, true, false, ()⟩ : ManagedDevice Unit)].length ≠ 0) ∧
    ∀ (i : ℕ) (d : ManagedDevice Unit),
      [(⟨"A", 50, true, false, ()⟩ : ManagedDevice Unit)][i]? = some d →
      d.is_usable = false →
      ([⟨50, "A", true, false⟩] : List Eqt)[i]? = some (toEqt d) ∧
      (toEqt d).state = d.is_active) := by
  have heval : recuit_simule ⟨1000, 1/10, 19/20, 0⟩ (fun _ => (0, (0:ℝ)))
      [(⟨"A", 50, true, false, ()⟩ : ManagedDevice Unit)]
      (some 100) (some 0) (some 10) (some 15) (some 13) =
      .ok ([⟨50, "A", true, false⟩], 5000/79, 50) := by
    norm_num [recuit_simule, recuitLoop, mkCtx, generer_solution_initiale, initState,
      calculer_objectif, consommation_equipements, toEqt, List.filter_cons,
      ok_bind, err_bind, pure_eq_ok]
  refine ⟨heval, by norm_num, ?_⟩
  exact C5_unusable_states_frozen.2 Unit ⟨1000, 1/10, 19/20, 0⟩ (fun _ => (0, (0:ℝ)))
    [(⟨"A", 50, true, false, ()⟩ : ManagedDevice Unit)] 100 0 10 15 13
    [⟨50, "A", true, false⟩] (5000/79) 50 heval (by norm_num)

/-! ### The solve entrypoint: sentinel and error behaviour -/

/-- The guard of `recuit_simule`: empty device list or any `None` scalar
yields the sentinel. -/
theorem recuit_simule_sentinel {α : Type} (cfg : AlgoConfig) (R : ℕ → ℕ × ℝ)
    (devices : List (ManagedDevice α)) (pc sp sc bc tx : Option ℚ)
    (hcase : devices = [] ∨ pc = none ∨ sp = none ∨ sc = none ∨ bc = none ∨
      tx = none) :
    recuit_simule cfg R devices pc sp sc bc tx = .ok ([], -1, -1) := by
  rcases pc with _ | pc <;> rcases sp with _ | sp <;> rcases sc with _ | sc <;>
    rcases bc with _ | bc <;> rcases tx with _ | tx <;> try rfl
  have hdev : devices = [] := by
    rcases hcase with h | h | h | h | h | h
    · exact h
    all_goals exact absurd h (by simp)
  subst hdev
  simp [recuit_simule]

/-- Claim C6 (counterexample): with a non-empty device list and all scalar
arguments present, a solve call can still fail to return a triple: with one
non-usable device and one iteration, the neighbour draw raises `IndexError`,
which propagates out of `recuit_simule`. -/
theorem C6_solve_can_raise :
    recuit_simule ⟨1000, 1/10, 19/20, 1⟩ (fun _ => (0, (0:ℝ)))
      [(⟨"A", 100, false, false, ()⟩ : ManagedDevice Unit)]
      (some 0) (some 0) (some 10) (some 15) (some 13) = .error .indexError := by
  norm_num [recuit_simule, recuitLoop, recuitStep, mkCtx, generer_solution_initiale,
    initState, calculer_objectif, consommation_equipements, toEqt,
    permuter_equipement, List.filter_cons, ok_bind, err_bind, pure_eq_ok]

/-- Claim C6 (amended): `recuit_simule` returns the sentinel `([], -1, -1)`
exactly when the device list is empty or some scalar argument is `None`;
otherwise it runs the annealing, which may propagate an exception
(`IndexError` with no usable device, `ZeroDivisionError` on a zero tariff
denominator), and when it returns normally it returns
`(best_solution, best_objective, total_power(best_solution))` with
`best_objective` the objective of `best_solution` and the solution having one
entry per input device. -/
theorem C6_sentinel_contract :
    (∀ (α : Type) (cfg : AlgoConfig) (R : ℕ → ℕ × ℝ)
      (devices : List (ManagedDevice α)) (pc sp sc bc tx : Option ℚ),
      recuit_simule cfg R devices pc sp sc bc tx = .ok ([], -1, -1) ↔
      (devices = [] ∨ pc = none ∨ sp = none ∨ sc = none ∨ bc = none ∨
        tx = none)) ∧
    (∀ (α : Type) (cfg : AlgoConfig) (R : ℕ → ℕ × ℝ)
      (devices : List (ManagedDevice α)) (pc sp sc bc tx : ℚ)
      (sol : List Eqt) (obj pw : ℚ),
      recuit_simule cfg R devices (some pc) (some sp) (some sc) (some bc)
        (some tx) = .ok (sol, obj, pw) →
      devices.length ≠ 0 →
      sol.length = devices.length ∧
      pw = consommation_equipements sol ∧
      calculer_objectif (mkCtx pc sp sc bc tx (devices.map toEqt)) sol = .ok obj) := by
  constructor
  · intro α cfg R devices pc sp sc bc tx
    constructor
    · intro h
      by_contra hcon
      push_neg at hcon
      obtain ⟨hdev, hpc, hsp, hsc, hbc, htx⟩ := hcon
      rcases pc with _ | pc
      · exact hpc rfl
      rcases sp with _ | sp
      · exact hsp rfl
      rcases sc with _ | sc
      · exact hsc rfl
      rcases bc with _ | bc
      · exact hbc rfl
      rcases tx with _ | tx
      · exact htx rfl
      have hne : devices.length ≠ 0 := by
        simpa [List.length_eq_zero] using hdev
      obtain ⟨m, sF, hm, hloop, hsol, hobj, hpw⟩ :=
        recuit_simule_ok_inv cfg R devices pc sp sc bc tx [] (-1) (-1) hne h
      obtain ⟨_, hfb⟩ := recuitLoop_preservesFixed (devices.map toEqt)
        (mkCtx pc sp sc bc tx (devices.map toEqt)) R
        cfg.facteur_refroidissement cfg.temperature_minimale
        cfg.nombre_iterations 0 (initState cfg (devices.map toEqt) m) sF
        (preservesFixed_refl _) (preservesFixed_refl _) hloop
      have hlen : sF.best.length = devices.length := by
        rw [hfb.1]
        simp
      rw [← hsol] at hlen
      simp only [List.length_nil] at hlen
      exact hne hlen.symm
    · exact recuit_simule_sentinel cfg R devices pc sp sc bc tx
  · intro α cfg R devices pc sp sc bc tx sol obj pw h hne
    obtain ⟨m, sF, hm, hloop, hsol, hobj, hpw⟩ :=
      recuit_simule_ok_inv cfg R devices pc sp sc bc tx sol obj pw hne h
    obtain ⟨_, hfb⟩ := recuitLoop_preservesFixed (devices.map toEqt)
      (mkCtx pc sp sc bc tx (devices.map toEqt)) R
      cfg.facteur_refroidissement cfg.temperature_minimale
      cfg.nombre_iterations 0 (initState cfg (devices.map toEqt) m) sF
      (preservesFixed_refl _) (preservesFixed_refl _) hloop
    have hinv0 : ObjInv (mkCtx pc sp sc bc tx (devices.map toEqt))
        (initState cfg (devices.map toEqt) m) := ⟨hm, m, hm, le_rfl⟩
    obtain ⟨⟨hbestobj, _⟩, _, _⟩ := recuitLoop_objInv
      (mkCtx pc sp sc bc tx (devices.map toEqt)) R
      cfg.facteur_refroidissement cfg.temperature_minimale
      cfg.nombre_iterations 0 (initState cfg (devices.map toEqt) m) sF hinv0 hloop
    refine ⟨?_, ?_, ?_⟩
    · rw [hsol, hfb.1]
      simp
    · rw [hpw, hsol]
    · rw [hsol, hobj]
      exact hbestobj

/-- Witness for the amended C6: the sentinel at an empty device list, via the
characterisation. -/
theorem C6_sentinel_contract_witness :
    recuit_simule ⟨1000, 1/10, 19/20, 1000⟩ (fun _ => (0, (0:ℝ)))
      ([] : List (ManagedDevice Unit)) (some 5) (some 3) (some 10) (some 15)
      (some 13) = .ok ([], -1, -1) :=
  (C6_sentinel_contract.1 Unit ⟨1000, 1/10, 19/20, 1000⟩ (fun _ => (0, (0:ℝ)))
    [] (some 5) (some 3) (some 10) (some 15) (some 13)).mpr (Or.inl rfl)

/-! ### The solver reads only four fields of each device -/

/-- Claim C10: `recuit_simule` depends on the caller's devices only through
the four read attributes `name`, `power_max`, `is_active`, `is_usable`: two
device lists (even of different payload types) with the same projections give
identical results.  In this pure embedding the input lists are values, so a
call cannot mutate them; every solution handled by the run is built from the
fresh working copies `toEqt d`. -/
theorem C10_reads_only_projection (α β : Type) (cfg : AlgoConfig)
    (R : ℕ → ℕ × ℝ) (ds₁ : List (ManagedDevice α)) (ds₂ : List (ManagedDevice β))
    (pc sp sc bc tx : Option ℚ)
    (h : ds₁.map ManagedDevice.proj = ds₂.map ManagedDevice.proj) :
    recuit_simule cfg R ds₁ pc sp sc bc tx =
      recuit_simule cfg R ds₂ pc sp sc bc tx := by
  have hfun1 : ((fun p : String × ℚ × Bool × Bool =>
      (⟨p.2.1, p.1, p.2.2.1, p.2.2.2⟩ : Eqt)) ∘ ManagedDevice.proj :
      ManagedDevice α → Eqt) = toEqt := funext fun d => rfl
  have hfun2 : ((fun p : String × ℚ × Bool × Bool =>
      (⟨p.2.1, p.1, p.2.2.1, p.2.2.2⟩ : Eqt)) ∘ ManagedDevice.proj :
      ManagedDevice β → Eqt) = toEqt := funext fun d => rfl
  have h1 : ds₁.map toEqt =
      (ds₁.map ManagedDevice.proj).map
        (fun p : String × ℚ × Bool × Bool => (⟨p.2.1, p.1, p.2.2.1, p.2.2.2⟩ : Eqt)) := by
    rw [List.map_map, hfun1]
  have h2 : ds₂.map toEqt =
      (ds₂.map ManagedDevice.proj).map
        (fun p : String × ℚ × Bool × Bool => (⟨p.2.1, p.1, p.2.2.1, p.2.2.2⟩ : Eqt)) := by
    rw [List.map_map, hfun2]
  have hEq : ds₁.map toEqt = ds₂.map toEqt := by
    rw [h1, h2, h]
  have hlen : ds₁.length = ds₂.length := by
    have := congrArg List.length h
    simpa using this
  rcases pc with _ | pc <;> rcases sp with _ | sp <;> rcases sc with _ | sc <;>
    rcases bc with _ | bc <;> rcases tx with _ | tx <;> try rfl
  unfold recuit_simule
  dsimp only
  rw [hlen, hEq]

/-- Witness for C10: same four fields, different payloads. -/
theorem C10_reads_only_projection_witness :
    ([(⟨"A", 100, true, false, (3 : ℕ)⟩ : ManagedDevice ℕ)].map ManagedDevice.proj =
      [(⟨"A", 100, true, false, "x"⟩ : ManagedDevice String)].map ManagedDevice.proj) ∧
    recuit_simule ⟨1000, 1/10, 19/20, 3⟩ (fun _ => (0, (0:ℝ)))
      [(⟨"A", 100, true, false, (3 : ℕ)⟩ : ManagedDevice ℕ)]
      (some 5) (some 3) (some 10) (some 15) (some 13) =
    recuit_simule ⟨1000, 1/10, 19/20, 3⟩ (fun _ => (0, (0:ℝ)))
      [(⟨"A", 100, true, false, "x"⟩ : ManagedDevice String)]
      (some 5) (some 3) (some 10) (some 15) (some 13) :=
  ⟨rfl, C10_reads_only_projection ℕ String ⟨1000, 1/10, 19/20, 3⟩
    (fun _ => (0, (0:ℝ)))
    [(⟨"A", 100, true, false, (3 : ℕ)⟩ : ManagedDevice ℕ)]
    [(⟨"A", 100, true, false, "x"⟩ : ManagedDevice String)]
    (some 5) (some 3) (some 10) (some 15) (some 13) rfl⟩

end SolarOptimizer
